import Mathlib

/-!
Verification of the client-side resilient data-fetching layer of
crypto-stock-tracker: the `NetworkService` class (cache store, request
deduplicator, retry executor, metrics recorder) in
`src/app/utils/fallbackData.ts` and the reactive `useDataFetch` hook in
`src/app/utils/useDataFetch.ts`.

JavaScript `Map` objects are embedded as association lists in insertion
order (a `Map.set` on an existing key updates the value in place, a set on
a fresh key appends at the end, `Map.delete` removes the binding, and
`Map.prototype.keys()` yields keys in insertion order).  Machine clock
readings (`Date.now()`, `performance.now()`) are supplied by the
environment as natural numbers.  JavaScript runtime values that flow
through the untyped parts of the service (JSON payloads and the
`\x7b data, metrics \x7d` result records that `executeRequest` resolves
with) are embedded as the inductive type `Val`, so that the unchecked cast
on the deduplication path of `fetch` is expressible.
-/

namespace NetworkService

/-- Record `NetworkMetrics`, `fallbackData.ts` lines 125-131. -/
structure NetworkMetrics where
  responseTime : Nat
  cacheHit : Bool
  retryCount : Nat
  payloadSize : Nat
  timestamp : Nat
  deriving Repr, DecidableEq

/-- Untyped JavaScript values as they flow through the service: an opaque
JSON payload (represented by its serialized text), or the
`\x7b data, metrics \x7d` result record produced by `executeRequest`.  The
latter constructor is needed because `fetch` stores the full result record
in `pendingRequests` and a deduplicated caller receives that record itself
as its `data` (via the unchecked `as T` cast on line 183). -/
inductive Val where
  | atom (json : String)
  | fetchResult (data : Val) (metrics : NetworkMetrics)
  deriving Repr, DecidableEq

/-- Model of `JSON.stringify` on the values of `Val`; an atom is its own
serialized text. -/
def valStringify : Val → String
  | .atom j => j
  | .fetchResult d m =>
      "\x7b\"data\":" ++ valStringify d ++ ",\"metrics\":\x7b\"responseTime\":"
        ++ Nat.repr m.responseTime ++ ",\"cacheHit\":"
        ++ (if m.cacheHit then "true" else "false") ++ ",\"retryCount\":"
        ++ Nat.repr m.retryCount ++ ",\"payloadSize\":"
        ++ Nat.repr m.payloadSize ++ ",\"timestamp\":"
        ++ Nat.repr m.timestamp ++ "\x7d\x7d"

/-- Length of `JSON.stringify(v)`, used for the `payloadSize` metrics field. -/
def valSize (v : Val) : Nat := (valStringify v).length

/-- Record `CacheEntry`, `fallbackData.ts` lines 133-138. -/
structure CacheEntry where
  data : Val
  timestamp : Nat
  ttl : Nat
  etag : Option String
  deriving Repr, DecidableEq

/-- Record `RequestConfig`, `fallbackData.ts` lines 140-146.  Absent
optional properties are `none`.  An `AbortSignal` has no enumerable own
properties, so for serialization only its presence matters; its identity
is embedded as a `Nat` token so that two distinct signals are
distinguishable values.  The abort state of the signal over time is
supplied separately by the attempt environment (see `AttemptEnv`). -/
structure RequestConfig where
  timeout : Option Nat := none
  retry : Option Nat := none
  ttl : Option Nat := none
  retryDelay : Option Nat := none
  signal : Option Nat := none
  deriving Repr, DecidableEq

/-- Association-list embedding of `Map.prototype.get`. -/
def mapGet {α : Type} : List (String × α) → String → Option α
  | [], _ => none
  | (k₁, v) :: rest, k => if k₁ = k then some v else mapGet rest k

/-- Association-list embedding of `Map.prototype.set`: update in place if
the key is present, else append at the end (insertion order preserved). -/
def mapSet {α : Type} : List (String × α) → String → α → List (String × α)
  | [], k, v => [(k, v)]
  | (k₁, v₁) :: rest, k, v =>
      if k₁ = k then (k, v) :: rest else (k₁, v₁) :: mapSet rest k v

/-- Association-list embedding of `Map.prototype.delete`. -/
def mapDel {α : Type} : List (String × α) → String → List (String × α)
  | [], _ => []
  | (k₁, v₁) :: rest, k => if k₁ = k then rest else (k₁, v₁) :: mapDel rest k

/-- Constant `this.maxCacheSize`, `fallbackData.ts` line 152. -/
def maxCacheSize : Nat := 50

/-- Model of `JSON.stringify(options)` for a `RequestConfig` object whose
properties were assigned in the declared field order: present fields are
emitted in order, absent (`undefined`) fields are omitted, and an
`AbortSignal` serializes as the empty object (it has no enumerable own
properties). -/
def stringifyConfig (c : RequestConfig) : String :=
  let fs : List (Option String) :=
    [c.timeout.map (fun n => "\"timeout\":" ++ Nat.repr n),
     c.retry.map (fun n => "\"retry\":" ++ Nat.repr n),
     c.ttl.map (fun n => "\"ttl\":" ++ Nat.repr n),
     c.retryDelay.map (fun n => "\"retryDelay\":" ++ Nat.repr n),
     c.signal.map (fun _ => "\"signal\":\x7b\x7d")]
  "\x7b" ++ String.intercalate (",") (fs.filterMap id) ++ "\x7d"

/-- Key builder `getCacheKey`, `fallbackData.ts` lines 296-298:
`` `$\x7burl\x7d:$\x7bJSON.stringify(options)\x7d` ``. -/
def getCacheKey (url : String) (options : RequestConfig) : String :=
  url ++ ":" ++ stringifyConfig options

/-- Cache read `getFromCache`, `fallbackData.ts` lines 300-310.  Returns the value
read (`null` embedded as `none`) together with the cache after the read
(the read deletes an expired entry). -/
def getFromCache (cache : List (String × CacheEntry)) (key : String)
    (now : Nat) : Option Val × List (String × CacheEntry) :=
  match mapGet cache key with
  | none => (none, cache)
  | some entry =>
      if entry.ttl < now - entry.timestamp then (none, mapDel cache key)
      else (some entry.data, cache)

/-- Cache write `setCache`, `fallbackData.ts` lines 312-325: when the store holds at
least `maxCacheSize` entries the first (oldest-inserted) binding is
deleted, then the new entry is written with `timestamp = Date.now()`. -/
def setCache (cache : List (String × CacheEntry)) (key : String) (data : Val)
    (ttl : Nat) (now : Nat) (etag : Option String) :
    List (String × CacheEntry) :=
  let cache₁ :=
    if maxCacheSize ≤ cache.length then
      match cache with
      | [] => []
      | _ :: rest => rest
    else cache
  mapSet cache₁ key ⟨data, now, ttl, etag⟩

/-- Metrics append `recordMetrics`, `fallbackData.ts` lines 336-348: append the entry to
the per-URL history, then keep only the last 100 entries
(`splice(0, length - 100)` when the length exceeds 100). -/
def recordMetrics (ms : List (String × List NetworkMetrics)) (url : String)
    (m : NetworkMetrics) : List (String × List NetworkMetrics) :=
  let cur := (mapGet ms url).getD []
  let cur := cur ++ [m]
  let cur := if 100 < cur.length then cur.drop (cur.length - 100) else cur
  mapSet ms url cur

/-- Number of entries in the metrics history of `url`. -/
def metricsCount (ms : List (String × List NetworkMetrics)) (url : String) :
    Nat :=
  ((mapGet ms url).getD []).length

/-- A JavaScript `Error` as observed by the `catch` block: its `name`
(`"Error"` for `new Error(...)`, `"AbortError"` for a `fetch` rejected by
an aborted controller) and its `message`. -/
structure JsError where
  name : String
  message : String
  deriving Repr, DecidableEq

/-- What the network does on one physical attempt inside the `try` block of
`executeRequest` (lines 222-263): the response arrives (with its status,
status text, JSON-parse result of the body, and optional etag header);
or the per-attempt timer fires first and aborts the controller, so `fetch`
rejects with an `AbortError`; or the connection fails and `fetch` rejects
with some other error. -/
inductive AttemptOutcome where
  | response (status : Nat) (statusText : String)
      (json : Except JsError Val) (etag : Option String)
  | timeoutAbort
  | netError (e : JsError)
  deriving Repr

/-- Environment of one loop iteration of `executeRequest`: the value of
`signal?.aborted` at the check before `fetch` (line 228) and at the check
inside `catch` (line 271), the network outcome, and the machine clock
readings if this iteration ends the loop (`now` for `Date.now()`,
`elapsed` for `performance.now() - startTime`). -/
structure AttemptEnv where
  aborted1 : Bool
  aborted2 : Bool
  outcome : AttemptOutcome
  now : Nat
  elapsed : Nat
  deriving Repr

/-- Test whether the first list is a leading segment of the second. -/
def chStarts : List Char → List Char → Bool
  | [], _ => true
  | _ :: _, [] => false
  | c :: cs, d :: ds => c = d && chStarts cs ds

/-- Substring occurrence test on character lists. -/
def chHas (pat : List Char) : List Char → Bool
  | [] => chStarts pat []
  | d :: ds => chStarts pat (d :: ds) || chHas pat ds

/-- Model of `String.prototype.includes`. -/
def strIncludes (s pat : String) : Bool := chHas pat.data s.data

/-- The message of the error thrown on a non-ok response, line 243:
`` `HTTP $\x7bresponse.status\x7d: $\x7bresponse.statusText\x7d` ``. -/
def httpErrMsg (status : Nat) (statusText : String) : String :=
  "HTTP " ++ Nat.repr status ++ ": " ++ statusText

/-- Predicate `response.ok`: status in the range 200-299. -/
def responseOk (status : Nat) : Bool := 200 ≤ status && status < 300

/-- What the `try` block of one iteration throws (`none` = the iteration
succeeds with the parsed body and etag), lines 223-262:
if `signal?.aborted` then `throw new Error('Request aborted')`; a timeout
abort rejects `fetch` with an `AbortError`; a connection failure rejects
with its own error; a non-ok response throws
`new Error('HTTP ...: ...')`; a body that fails to parse rejects
`response.json()` with its parse error. -/
def attemptThrow (e : AttemptEnv) : Except JsError (Val × Option String) :=
  if e.aborted1 then .error ⟨"Error", "Request aborted"⟩
  else
    match e.outcome with
    | .timeoutAbort => .error ⟨"AbortError", "The operation was aborted"⟩
    | .netError err => .error err
    | .response status statusText json etag =>
        if responseOk status then
          match json with
          | .error err => .error err
          | .ok data => .ok (data, etag)
        else .error ⟨"Error", httpErrMsg status statusText⟩

/-- The `catch` block's break condition, lines 268-275: stop retrying when
the error is an `AbortError`, or the external signal is aborted, or the
message contains `'HTTP 4'`. -/
def breaksLoop (e : AttemptEnv) (err : JsError) : Bool :=
  err.name = "AbortError" || e.aborted2 || strIncludes err.message ("HTTP 4")

/-- An attempt environment on which the iteration throws an error that the
`catch` block classifies as retryable. -/
def retryableEnv (e : AttemptEnv) : Bool :=
  match attemptThrow e with
  | .ok _ => false
  | .error err => !breaksLoop e err

/-- Aggregate outcome of the `for` loop of `executeRequest`. -/
structure LoopOut where
  res : Except JsError (Val × Option String)
  attempts : Nat
  retryCount : Nat
  delays : List Nat
  deriving Repr

/-- The `for` loop of `executeRequest`, lines 222-281, unrolled on the fuel
`retry + 1 - attempt`:  iteration `attempt` runs its `try` block
(`attemptThrow`); on success the loop returns; on an error the `catch`
block increments `retryCount`, breaks on `breaksLoop`, and otherwise, when
`attempt < retry`, sleeps `retryDelay * 2 ^ attempt` before continuing.
When the loop form exits without a result, the last error (or the default
`'Request failed after retries'`) is surfaced, line 293. -/
def execLoop (retry retryDelay : Nat) (envs : Nat → AttemptEnv) :
    Nat → Nat → Nat → Option JsError → LoopOut
  | _, 0, retryCount, lastError =>
      { res := .error (lastError.getD ⟨"Error", "Request failed after retries"⟩),
        attempts := 0, retryCount := retryCount, delays := [] }
  | attempt, fuel + 1, retryCount, _ =>
      let e := envs attempt
      match attemptThrow e with
      | .ok (data, etag) =>
          { res := .ok (data, etag), attempts := 1,
            retryCount := retryCount, delays := [] }
      | .error err =>
          let rc := retryCount + 1
          if breaksLoop e err then
            { res := .error err, attempts := 1, retryCount := rc, delays := [] }
          else
            let rest := execLoop retry retryDelay envs (attempt + 1) fuel rc (some err)
            if attempt < retry then
              { res := rest.res, attempts := rest.attempts + 1,
                retryCount := rest.retryCount,
                delays := retryDelay * 2 ^ attempt :: rest.delays }
            else
              { res := rest.res, attempts := rest.attempts + 1,
                retryCount := rest.retryCount, delays := rest.delays }

/-- Shared mutable state of the `NetworkService` singleton: `this.cache`,
`this.pendingRequests` (the set of registered keys), and `this.metrics`. -/
structure NetworkState where
  cache : List (String × CacheEntry)
  pending : List String
  metrics : List (String × List NetworkMetrics)
  deriving Repr, DecidableEq

/-- Model of `executeRequest`, lines 206-294, as a state transformer: destructure
the options with their defaults (`timeout = 10000` is carried by the
environment, `retry = 3`, `ttl = 300000`, `retryDelay = 1000`), run the
loop, and then either cache the successful response and record its
metrics, or record the failure metrics and rethrow the last error. -/
def executeRequest (st : NetworkState) (url : String) (options : RequestConfig)
    (envs : Nat → AttemptEnv) :
    Except JsError (Val × NetworkMetrics) × NetworkState :=
  let retry := options.retry.getD 3
  let ttl := options.ttl.getD 300000
  let retryDelay := options.retryDelay.getD 1000
  let out := execLoop retry retryDelay envs 0 (retry + 1) 0 none
  let e := envs (out.attempts - 1)
  match out.res with
  | .ok (data, etag) =>
      let m : NetworkMetrics :=
        ⟨e.elapsed, false, out.retryCount, valSize data, e.now⟩
      (.ok (data, m),
       { st with
           cache := setCache st.cache (getCacheKey url options) data ttl e.now etag,
           metrics := recordMetrics st.metrics url m })
  | .error err =>
      let m : NetworkMetrics := ⟨e.elapsed, false, out.retryCount, 0, e.now⟩
      (.error err, { st with metrics := recordMetrics st.metrics url m })

/-- Which of the three paths of `fetch` (lines 160-204) a caller takes:
return from cache (lines 168-179), attach to the pending request for the
key (lines 182-192), or register a new request and start
`executeRequest` (lines 195-196). -/
inductive FetchPath where
  | cacheHit (data : Val)
  | attach
  | start
  deriving Repr, DecidableEq

/-- The synchronous prefix of `fetch`, lines 160-196: compute the cache
key, read the cache (recording a cache-hit metrics entry on a hit),
otherwise consult `pendingRequests`, and otherwise register the key.
`now` is `Date.now()` and `elapsed` is `performance.now() - startTime` at
the metrics construction on a hit. -/
def fetchPath (st : NetworkState) (url : String) (options : RequestConfig)
    (now elapsed : Nat) : FetchPath × NetworkState :=
  let cacheKey := getCacheKey url options
  match getFromCache st.cache cacheKey now with
  | (some data, cache₁) =>
      let m : NetworkMetrics := ⟨elapsed, true, 0, valSize data, now⟩
      (.cacheHit data,
       { st with cache := cache₁, metrics := recordMetrics st.metrics url m })
  | (none, cache₁) =>
      if cacheKey ∈ st.pending then (.attach, { st with cache := cache₁ })
      else (.start, { st with cache := cache₁, pending := cacheKey :: st.pending })

/-- What a deduplicated caller returns, lines 183-191: the promise stored
in `pendingRequests` resolves to the full `\x7b data, metrics \x7d` record
of `executeRequest`; the attaching caller binds that whole record as its
`data` (the unchecked `as T` cast) and pairs it with a freshly built
metrics record that is not recorded anywhere. -/
def attachResult (resolved : Val × NetworkMetrics) (now elapsed : Nat) :
    Val × NetworkMetrics :=
  let dataVal := Val.fetchResult resolved.1 resolved.2
  (dataVal, ⟨elapsed, false, 0, valSize dataVal, now⟩)

/-- State of the deduplication registry together with the multiset of
physical requests (`executeRequest` calls) currently in flight, each
request represented by its cache key. -/
structure DedupState where
  pending : List String
  physical : List String
  deriving Repr

/-- Events of the deduplication protocol: a caller arrives for `url` with
`options` (with `cacheHit` telling whether `getFromCache` produced a hit
at that instant), or the logical request for a registered key resolves
(its `executeRequest` has ended and the `finally` block of `fetch`, line
202, deletes the registry entry). -/
inductive DedupEv where
  | arrive (url : String) (options : RequestConfig) (cacheHit : Bool)
  | complete (key : String)

/-- One transition of the deduplication protocol, following the
synchronous prefix of `fetch` (lines 160-196, no suspension point between
the `pendingRequests` check and the registration) and its `finally`
block (line 202). -/
def dedupStep (s : DedupState) : DedupEv → DedupState
  | .arrive url options cacheHit =>
      let key := getCacheKey url options
      if cacheHit then s
      else if key ∈ s.pending then s
      else { pending := key :: s.pending, physical := key :: s.physical }
  | .complete key =>
      if key ∈ s.pending then
        { pending := s.pending.erase key, physical := s.physical.erase key }
      else s

/-- Run of the deduplication protocol from the initial (empty) state. -/
def dedupRun (evs : List DedupEv) : DedupState :=
  evs.foldl dedupStep ⟨[], []⟩

end NetworkService

namespace UseDataFetch

open NetworkService

/-- The state held by the `useDataFetch` hook in its `useState` cells,
`useDataFetch.ts` lines 36-40.  `data` starts as
`fallbackData as T || null`, `lastFetch` starts at `0`. -/
structure HookState where
  data : Option Val
  loading : Bool
  error : Option JsError
  metrics : Option NetworkMetrics
  lastFetch : Nat
  deriving Repr, DecidableEq

/-- The initial hook state, lines 36-40: `data` is seeded with the
caller-supplied `fallbackData` when present (a truthy value; `|| null`
turns a falsy one into `null`, which the `Option` embedding folds into
`none`). -/
def initialState (fallbackData : Option Val) : HookState :=
  ⟨fallbackData, false, none, none, 0⟩

/-- Outcome of the awaited `networkService.fetch` call inside `fetchData`
(lines 63-66) together with the value of
`abortControllerRef.current.signal.aborted` when control resumes. -/
inductive FetchOutcome where
  | success (data : Val) (m : NetworkMetrics) (abortedAfter : Bool)
  | failure (err : JsError) (abortedAfter : Bool)

/-- The public result record `UseDataFetchResult`, lines 14-21, minus the
`refetch` closure: `data`, `loading`, `error`, `metrics` and
`isStale = Date.now() - lastFetch > staleTime` (line 138).  There is no
other field. -/
structure UseDataFetchResult where
  data : Option Val
  loading : Bool
  error : Option JsError
  metrics : Option NetworkMetrics
  isStale : Bool
  deriving Repr, DecidableEq

/-- Render the hook state as the public result, lines 138-147. -/
def mkResult (s : HookState) (staleTime now : Nat) : UseDataFetchResult :=
  ⟨s.data, s.loading, s.error, s.metrics, staleTime < now - s.lastFetch⟩

/-- One run of `fetchData`, lines 45-86: bail out when disabled; bail out
when not forced and the held data is still fresh; set `loading` and clear
`error`; then, depending on the awaited outcome: on success (and not
aborted) store data, metrics and `lastFetch`; on a non-abort error store
the error and, when no data is held and a (truthy) `fallbackData` was
supplied, substitute it as data; finally clear `loading` unless aborted. -/
def fetchDataStep (s : HookState) (enabled force : Bool)
    (fallbackData : Option Val) (staleTime now : Nat)
    (outcome : FetchOutcome) : HookState :=
  if !enabled then s
  else if !force && s.data.isSome && now - s.lastFetch < staleTime then s
  else
    let s₁ := { s with loading := true, error := none }
    match outcome with
    | .success d m abortedAfter =>
        let s₂ :=
          if abortedAfter then s₁
          else { s₁ with data := some d, metrics := some m, lastFetch := now }
        if abortedAfter then s₂ else { s₂ with loading := false }
    | .failure err abortedAfter =>
        let s₂ :=
          if err.name = "AbortError" then s₁
          else
            let s₃ := { s₁ with error := some err }
            if s.data.isNone && fallbackData.isSome then
              { s₃ with data := fallbackData }
            else s₃
        if abortedAfter then s₂ else { s₂ with loading := false }

end UseDataFetch

namespace NetworkService

/-- Arguments of one `setCache` call. -/
structure SetOp where
  key : String
  data : Val
  ttl : Nat
  now : Nat
  etag : Option String

/-- Apply a sequence of `setCache` calls to a cache store. -/
def applySets (ops : List SetOp) (c : List (String × CacheEntry)) :
    List (String × CacheEntry) :=
  ops.foldl (fun acc op => setCache acc op.key op.data op.ttl op.now op.etag) c

/-- Invariant of the deduplication protocol: every in-flight physical
request is registered in `pendingRequests`, and neither list repeats a
key. -/
def dedupInv (s : DedupState) : Prop :=
  s.physical ⊆ s.pending ∧ s.pending.Nodup ∧ s.physical.Nodup

/-- Attempt environment where every attempt fails with a connection error
(a retryable failure) and the external signal is never aborted. -/
def envAllTransient : Nat → AttemptEnv :=
  fun _ => ⟨false, false, .netError ⟨"TypeError", "Failed to fetch"⟩, 5, 5⟩

/-- Attempt environment where the first attempt hits the per-attempt
timeout and every later attempt would succeed. -/
def envTimeoutThenOk : Nat → AttemptEnv :=
  fun i =>
    if i = 0 then ⟨false, false, .timeoutAbort, 10, 10⟩
    else ⟨false, false, .response 200 ("OK") (.ok (Val.atom ("42"))) none, 20, 20⟩

/-- Attempt environment where the external signal is aborted before the
first attempt starts. -/
def envAborted : Nat → AttemptEnv :=
  fun _ => ⟨true, true, .timeoutAbort, 7, 7⟩

/-- Attempt environment where every attempt is answered with HTTP 404. -/
def env404 : Nat → AttemptEnv :=
  fun _ =>
    ⟨false, false, .response 404 ("Not Found") (.ok (Val.atom ("x"))) none, 5, 5⟩

/-- A sample cache entry. -/
def entry₀ : CacheEntry := ⟨Val.atom ("v"), 0, 5, none⟩

/-- A store of `maxCacheSize - 1` entries keyed by the numerals 1-49,
used as the tail of a full store behind the oldest entry. -/
def tailCache : List (String × CacheEntry) :=
  (List.range' 1 (maxCacheSize - 1)).map fun i => (Nat.repr i, entry₀)

/-- A sample metrics record. -/
def metrics₀ : NetworkMetrics := ⟨1, false, 0, 2, 3⟩

/-- The empty request configuration (every optional property absent). -/
def config₀ : RequestConfig := {}

/-- A network state in which the key of `"/u"` with the empty
configuration is registered in `pendingRequests` and nothing else is
populated. -/
def statePending : NetworkState := ⟨[], [getCacheKey ("/u") config₀], []⟩

/-- A network state whose cache holds a fresh entry for the key of `"/u"`
with the empty configuration. -/
def stateCached : NetworkState :=
  ⟨[(getCacheKey ("/u") config₀, entry₀)], [], []⟩

/-- A configuration carrying an abort signal with identity token 7. -/
def sigConfig₁ : RequestConfig := ⟨some 1000, some 2, none, none, some 7⟩

/-- The same configuration as `sigConfig₁` except that its abort signal is
a different object (identity token 99). -/
def sigConfig₂ : RequestConfig := ⟨some 1000, some 2, none, none, some 99⟩

end NetworkService

namespace NetworkService

/-- Reading back the key just written returns the written value. -/
theorem mapGet_mapSet_self {α : Type} (m : List (String × α)) (k : String)
    (v : α) : mapGet (mapSet m k v) k = some v := by
  induction m with
  | nil => simp [mapSet, mapGet]
  | cons hd tl ih =>
      obtain ⟨k₁, v₁⟩ := hd
      by_cases h : k₁ = k
      · subst h; simp [mapSet, mapGet]
      · simp [mapSet, mapGet, h, ih]

/-- Writing one key leaves the values of other keys unchanged. -/
theorem mapGet_mapSet_ne {α : Type} (m : List (String × α)) (k k₂ : String)
    (v : α) (h : k ≠ k₂) : mapGet (mapSet m k v) k₂ = mapGet m k₂ := by
  induction m with
  | nil => simp [mapSet, mapGet, h]
  | cons hd tl ih =>
      obtain ⟨k₁, v₁⟩ := hd
      by_cases h₁ : k₁ = k
      · subst h₁; simp [mapSet, mapGet, h]
      · simp [mapSet, mapGet, h₁, ih]

/-- A key that appears in no binding reads as absent. -/
theorem mapGet_eq_none {α : Type} (m : List (String × α)) (k : String)
    (h : k ∉ m.map Prod.fst) : mapGet m k = none := by
  induction m with
  | nil => simp [mapGet]
  | cons hd tl ih =>
      obtain ⟨k₁, v₁⟩ := hd
      simp only [List.map_cons, List.mem_cons] at h
      push_neg at h
      obtain ⟨h1, h2⟩ := h
      have hne : ¬ k₁ = k := fun hh => h1 hh.symm
      simp [mapGet, hne, ih h2]

/-- A write grows the store by at most one binding. -/
theorem mapSet_length_le {α : Type} (m : List (String × α)) (k : String)
    (v : α) : (mapSet m k v).length ≤ m.length + 1 := by
  induction m with
  | nil => simp [mapSet]
  | cons hd tl ih =>
      obtain ⟨k₁, v₁⟩ := hd
      by_cases h : k₁ = k
      · simp [mapSet, h]
      · simp [mapSet, h]; omega

/-- Below the 100-entry cap, recording a metrics entry grows the history
of its endpoint by exactly one. -/
theorem metricsCount_recordMetrics (ms : List (String × List NetworkMetrics))
    (url : String) (m : NetworkMetrics) (h : metricsCount ms url < 100) :
    metricsCount (recordMetrics ms url m) url = metricsCount ms url + 1 := by
  unfold metricsCount at h ⊢
  unfold recordMetrics
  rw [mapGet_mapSet_self]
  simp only [List.length_append, List.length_cons, List.length_nil]
  rw [if_neg (by omega)]
  simp

/-- A leading segment occurs as a segment. -/
theorem chHas_of_chStarts (pat s : List Char) (h : chStarts pat s = true) :
    chHas pat s = true := by
  cases s with
  | nil => simpa [chHas] using h
  | cons d ds => simp [chHas, h]

/-- The decimal numeral of a number in the range 400-499 starts with the
digit 4. -/
theorem reprData400 : ∀ k, k < 100 → (Nat.repr (400 + k)).data.take 1 = ['4'] := by
  decide

end NetworkService

namespace NetworkService

/-- The HTTP error message of any 4xx status contains the substring
`'HTTP 4'` tested by the `catch` block. -/
theorem strIncludes_httpErrMsg_4xx (status : Nat) (statusText : String)
    (h4 : 400 ≤ status) (h5 : status < 500) :
    strIncludes (httpErrMsg status statusText) ("HTTP 4") = true := by
  obtain ⟨t, ht⟩ : ∃ t, (Nat.repr status).data = '4' :: t := by
    have hk : status - 400 < 100 := by omega
    have h := reprData400 (status - 400) hk
    have hst : 400 + (status - 400) = status := by omega
    rw [hst] at h
    rcases hd : (Nat.repr status).data with _ | ⟨c, t⟩
    · rw [hd] at h; simp at h
    · rw [hd] at h
      simp [List.take] at h
      exact ⟨t, by rw [h]⟩
  have hpat : ("HTTP 4" : String).data = ['H', 'T', 'T', 'P', ' ', '4'] := rfl
  have hpre : ("HTTP " : String).data = ['H', 'T', 'T', 'P', ' '] := rfl
  have hdata : (httpErrMsg status statusText).data
      = 'H' :: 'T' :: 'T' :: 'P' :: ' ' :: '4' :: (t ++ (": " ++ statusText).data) := by
    unfold httpErrMsg
    rw [String.data_append, String.data_append, String.data_append, hpre, ht]
    simp
  unfold strIncludes
  rw [hpat, hdata]
  apply chHas_of_chStarts
  simp [chStarts]

end NetworkService

namespace NetworkService

/-- When every remaining attempt fails with an error the `catch` block
classifies as retryable, the loop consumes its whole fuel, sleeps the
exponential backoff after every attempt but the last, and ends with the
error of the final attempt. -/
theorem execLoop_retryable_aux (retry retryDelay : Nat)
    (envs : Nat → AttemptEnv) :
    ∀ fuel attempt rc le, attempt + fuel = retry + 1 → 1 ≤ fuel →
    (∀ i, attempt ≤ i → i ≤ retry → retryableEnv (envs i) = true) →
    ∃ err, attemptThrow (envs retry) = .error err ∧
      execLoop retry retryDelay envs attempt fuel rc le =
        ⟨.error err, fuel, rc + fuel,
         (List.range' attempt (fuel - 1)).map fun i => retryDelay * 2 ^ i⟩ := by
  intro fuel
  induction fuel with
  | zero => intro attempt rc le h h1; omega
  | succ f ih =>
      intro attempt rc le h h1 hr
      have hattempt : attempt ≤ retry := by omega
      have hretryable := hr attempt le_rfl hattempt
      unfold retryableEnv at hretryable
      rcases hthrow : attemptThrow (envs attempt) with err | v
      · rw [hthrow] at hretryable
        simp at hretryable
        by_cases hf : f = 0
        · subst hf
          have har : attempt = retry := by omega
          subst har
          refine ⟨err, hthrow, ?_⟩
          simp [execLoop, hthrow, hretryable]
        · have hf1 : 1 ≤ f := by omega
          obtain ⟨err₂, hthrow₂, heq⟩ :=
            ih (attempt + 1) (rc + 1) (some err) (by omega) hf1
              (fun i hi1 hi2 => hr i (by omega) hi2)
          refine ⟨err₂, hthrow₂, ?_⟩
          have hlt : attempt < retry := by omega
          have hrange : List.range' attempt f
              = attempt :: List.range' (attempt + 1) (f - 1) := by
            have hfe : f = (f - 1) + 1 := by omega
            rw [hfe, List.range'_succ]
            simp
          simp only [execLoop, hthrow, hretryable, heq, hlt, if_true, if_pos hlt]
          simp [hrange]
          omega
      · rw [hthrow] at hretryable
        simp at hretryable

end NetworkService

namespace NetworkService

/-- One `setCache` call preserves the capacity bound. -/
theorem setCache_length (c : List (String × CacheEntry)) (key : String)
    (data : Val) (ttl now : Nat) (etag : Option String)
    (h : c.length ≤ maxCacheSize) :
    (setCache c key data ttl now etag).length ≤ maxCacheSize := by
  unfold setCache
  by_cases hfull : maxCacheSize ≤ c.length
  · rcases c with _ | ⟨hd, tl⟩
    · simp [hfull, mapSet, maxCacheSize]
    · simp only [hfull, if_pos]
      have := mapSet_length_le tl key (⟨data, now, ttl, etag⟩ : CacheEntry)
      simp at h ⊢
      omega
  · simp only [hfull, if_neg, ite_false]
    have := mapSet_length_le c key (⟨data, now, ttl, etag⟩ : CacheEntry)
    omega

/-- Any sequence of `setCache` calls preserves the capacity bound. -/
theorem applySets_length (ops : List SetOp) :
    ∀ c : List (String × CacheEntry), c.length ≤ maxCacheSize →
    (applySets ops c).length ≤ maxCacheSize := by
  induction ops with
  | nil => intro c h; simpa [applySets] using h
  | cons op rest ih =>
      intro c h
      have h₁ := setCache_length c op.key op.data op.ttl op.now op.etag h
      simpa [applySets] using ih _ h₁

/-- The deduplication invariant is preserved by every protocol step. -/
theorem dedupInv_step (s : DedupState) (ev : DedupEv) (hs : dedupInv s) :
    dedupInv (dedupStep s ev) := by
  obtain ⟨hsub, hpend, hphys⟩ := hs
  cases ev with
  | arrive url options cacheHit =>
      simp only [dedupStep]
      split_ifs with h1 h2
      · exact ⟨hsub, hpend, hphys⟩
      · exact ⟨hsub, hpend, hphys⟩
      · refine ⟨List.cons_subset_cons _ hsub, ?_, ?_⟩
        · exact List.nodup_cons.mpr ⟨h2, hpend⟩
        · exact List.nodup_cons.mpr ⟨fun hk => h2 (hsub hk), hphys⟩
  | complete key =>
      simp only [dedupStep]
      split_ifs with h1
      · refine ⟨?_, hpend.erase key, hphys.erase key⟩
        intro x hx
        have hmem : x ∈ s.physical := List.erase_subset _ _ hx
        have hne : x ≠ key := (hphys.mem_erase_iff.mp hx).1
        exact (List.mem_erase_of_ne hne).mpr (hsub hmem)
      · exact ⟨hsub, hpend, hphys⟩

/-- The deduplication invariant holds in every reachable state. -/
theorem dedupInv_run (evs : List DedupEv) : dedupInv (dedupRun evs) := by
  have general : ∀ (l : List DedupEv) (s : DedupState), dedupInv s →
      dedupInv (l.foldl dedupStep s) := by
    intro l
    induction l with
    | nil => intro s hs; exact hs
    | cons ev rest ih => intro s hs; exact ih _ (dedupInv_step s ev hs)
  exact general evs ⟨[], []⟩ ⟨by simp, List.nodup_nil, List.nodup_nil⟩

end NetworkService

namespace NetworkService

/-- Both exits of `executeRequest` record exactly one metrics entry for
the requested URL. -/
theorem executeRequest_metrics (st : NetworkState) (url : String)
    (options : RequestConfig) (envs : Nat → AttemptEnv) :
    ∃ m, ((executeRequest st url options envs).2).metrics
      = recordMetrics st.metrics url m := by
  simp only [executeRequest]
  rcases h : (execLoop (options.retry.getD 3) (options.retryDelay.getD 1000)
      envs 0 (options.retry.getD 3 + 1) 0 none).res with err | v
  · exact ⟨_, rfl⟩
  · obtain ⟨data, etag⟩ := v
    exact ⟨_, rfl⟩

/-- C2 (counterexample): at age exactly equal to the TTL the cache read
still returns the entry, contradicting the claimed miss at `age = T`
(the source tests `now - entry.timestamp > entry.ttl`, strictly). -/
theorem cache_hit_at_exact_ttl_cex :
    getFromCache [(("k" : String), ⟨Val.atom ("d"), 0, 5, none⟩)] ("k") 5
      = (some (Val.atom ("d")), [(("k" : String), ⟨Val.atom ("d"), 0, 5, none⟩)]) :=
  rfl

/-- C2 (amended): a stored cache entry is returned by a read while its age
is at most its TTL, and is deleted and reported absent once its age
strictly exceeds its TTL. -/
theorem cache_read_strict_ttl (c : List (String × CacheEntry)) (k : String)
    (e : CacheEntry) (now : Nat) (h : mapGet c k = some e) :
    (now - e.timestamp ≤ e.ttl → getFromCache c k now = (some e.data, c)) ∧
    (e.ttl < now - e.timestamp → getFromCache c k now = (none, mapDel c k)) := by
  constructor
  · intro h₂
    simp only [getFromCache, h]
    rw [if_neg (by omega)]
  · intro h₂
    simp only [getFromCache, h]
    rw [if_pos h₂]

/-- Witness for `cache_read_strict_ttl` at a concrete expired entry. -/
theorem cache_read_strict_ttl_witness :
    getFromCache [(("k" : String), entry₀)] ("k") 6
      = (none, mapDel [(("k" : String), entry₀)] ("k")) :=
  (cache_read_strict_ttl [(("k" : String), entry₀)] ("k") entry₀ 6 rfl).2
    (by decide)

/-- C3 (counterexample): with a budget of `retry = 3`, a per-attempt
timeout on the first attempt ends the whole loop after one attempt with
the `AbortError`, with no backoff slept, even though the second attempt
would have succeeded. -/
theorem timeout_not_retried_cex :
    execLoop 3 1000 envTimeoutThenOk 0 (3 + 1) 0 none
      = ⟨.error ⟨"AbortError", "The operation was aborted"⟩, 1, 1, []⟩ :=
  rfl

/-- C3 (amended): an attempt that fails by per-attempt timeout is
classified like an abort (`fetch` rejects with an `AbortError`, which the
`catch` block breaks on), so the retry loop terminates immediately with
the timeout error, performing no further attempts and sleeping no backoff,
regardless of the remaining budget. -/
theorem timeout_terminates_retry_loop (retry retryDelay : Nat)
    (envs : Nat → AttemptEnv) (h₁ : (envs 0).aborted1 = false)
    (hout : (envs 0).outcome = .timeoutAbort) :
    execLoop retry retryDelay envs 0 (retry + 1) 0 none
      = ⟨.error ⟨"AbortError", "The operation was aborted"⟩, 1, 1, []⟩ := by
  have hthrow : attemptThrow (envs 0)
      = .error ⟨"AbortError", "The operation was aborted"⟩ := by
    simp [attemptThrow, h₁, hout]
  have hbr : breaksLoop (envs 0)
      ⟨"AbortError", "The operation was aborted"⟩ = true := by
    simp [breaksLoop]
  simp [execLoop, hthrow, hbr]

/-- Witness for `timeout_terminates_retry_loop` at a concrete
environment. -/
theorem timeout_terminates_retry_loop_witness :
    execLoop 5 7 envTimeoutThenOk 0 (5 + 1) 0 none
      = ⟨.error ⟨"AbortError", "The operation was aborted"⟩, 1, 1, []⟩ :=
  timeout_terminates_retry_loop 5 7 envTimeoutThenOk rfl rfl

/-- C4 (counterexample): a request whose external signal is aborted before
the first attempt fails with the abort error, but one failure entry is
recorded in the endpoint's metrics history, not zero. -/
theorem abort_records_metrics_cex :
    (executeRequest ⟨[], [], []⟩ ("/u") config₀ envAborted).1
      = .error ⟨"Error", "Request aborted"⟩ ∧
    metricsCount ((executeRequest ⟨[], [], []⟩ ("/u") config₀ envAborted).2).metrics
      ("/u") = 1 :=
  ⟨rfl, rfl⟩

/-- C4 (amended): cancelling via the external signal before the first
attempt makes the request fail with the `'Request aborted'` error after a
single attempt with no backoff, and `executeRequest` adds exactly one
(failure) entry to the endpoint's metrics history. -/
theorem abort_error_and_one_metrics_entry (st : NetworkState) (url : String)
    (options : RequestConfig) (envs : Nat → AttemptEnv)
    (h₁ : (envs 0).aborted1 = true) (h₂ : (envs 0).aborted2 = true)
    (hcap : metricsCount st.metrics url < 100) :
    (executeRequest st url options envs).1
      = .error ⟨"Error", "Request aborted"⟩ ∧
    metricsCount ((executeRequest st url options envs).2).metrics url
      = metricsCount st.metrics url + 1 ∧
    ∀ retry retryDelay,
      execLoop retry retryDelay envs 0 (retry + 1) 0 none
        = ⟨.error ⟨"Error", "Request aborted"⟩, 1, 1, []⟩ := by
  have hthrow : attemptThrow (envs 0) = .error ⟨"Error", "Request aborted"⟩ := by
    simp [attemptThrow, h₁]
  have hbr : breaksLoop (envs 0) ⟨"Error", "Request aborted"⟩ = true := by
    simp [breaksLoop, h₂]
  have hloop : ∀ retry retryDelay,
      execLoop retry retryDelay envs 0 (retry + 1) 0 none
        = ⟨.error ⟨"Error", "Request aborted"⟩, 1, 1, []⟩ := by
    intro retry retryDelay
    simp [execLoop, hthrow, hbr]
  refine ⟨?_, ?_, hloop⟩
  · simp [executeRequest, hloop _ _]
  · obtain ⟨m, hm⟩ := executeRequest_metrics st url options envs
    rw [hm, metricsCount_recordMetrics _ _ _ hcap]

/-- Witness for `abort_error_and_one_metrics_entry` at a concrete aborted
environment. -/
theorem abort_error_and_one_metrics_entry_witness :
    (executeRequest ⟨[], [], []⟩ ("/x") config₀ envAborted).1
      = .error ⟨"Error", "Request aborted"⟩ ∧
    metricsCount ((executeRequest ⟨[], [], []⟩ ("/x") config₀ envAborted).2).metrics
      ("/x") = 1 :=
  ⟨(abort_error_and_one_metrics_entry ⟨[], [], []⟩ ("/x") config₀ envAborted
      rfl rfl (by decide)).1,
   (abort_error_and_one_metrics_entry ⟨[], [], []⟩ ("/x") config₀ envAborted
      rfl rfl (by decide)).2.1⟩

end NetworkService

namespace NetworkService

/-- C5: when every attempt fails with a retryable error and the external
signal is never aborted, the retry loop performs exactly `retry + 1`
(`config.maxRetries + 1`) physical attempts, the backoff slept before the
i-th retry is `retryDelay * 2 ^ (i - 1)` (the delays, in order, are
`retryDelay * 2 ^ 0, ..., retryDelay * 2 ^ (retry - 1)`), no backoff is
slept after the final attempt (there are only `retry` delays), and the
loop gives up with an error. -/
theorem retry_budget_and_exponential_backoff (retry retryDelay : Nat)
    (envs : Nat → AttemptEnv)
    (_hsig : ∀ i, i ≤ retry →
      (envs i).aborted1 = false ∧ (envs i).aborted2 = false)
    (hr : ∀ i, i ≤ retry → retryableEnv (envs i) = true) :
    (execLoop retry retryDelay envs 0 (retry + 1) 0 none).attempts
      = retry + 1 ∧
    (execLoop retry retryDelay envs 0 (retry + 1) 0 none).delays
      = (List.range retry).map (fun i => retryDelay * 2 ^ i) ∧
    ∃ err, (execLoop retry retryDelay envs 0 (retry + 1) 0 none).res
      = Except.error err := by
  obtain ⟨err, hthrow, heq⟩ := execLoop_retryable_aux retry retryDelay envs
    (retry + 1) 0 0 none (by omega) (by omega) (fun i _ h₂ => hr i h₂)
  rw [heq]
  refine ⟨rfl, ?_, ⟨err, rfl⟩⟩
  simp [List.range_eq_range']

/-- Witness for `retry_budget_and_exponential_backoff` with three
connection-refused attempts. -/
theorem retry_budget_and_exponential_backoff_witness :
    (execLoop 2 100 envAllTransient 0 (2 + 1) 0 none).attempts = 2 + 1 ∧
    (execLoop 2 100 envAllTransient 0 (2 + 1) 0 none).delays
      = (List.range 2).map (fun i => 100 * 2 ^ i) ∧
    ∃ err, (execLoop 2 100 envAllTransient 0 (2 + 1) 0 none).res
      = Except.error err :=
  retry_budget_and_exponential_backoff 2 100 envAllTransient
    (fun _ _ => ⟨rfl, rfl⟩) (fun _ _ => rfl)

/-- C6: a first attempt answered by an HTTP 4xx status throws the
`'HTTP ...'` error, which the `catch` block classifies as terminal; the
loop performs exactly one attempt, sleeps no backoff, and the error
propagates through `executeRequest` to the caller. -/
theorem client_error_single_attempt (retry retryDelay : Nat)
    (envs : Nat → AttemptEnv) (status : Nat) (statusText : String)
    (json : Except JsError Val) (etag : Option String) (now elapsed : Nat)
    (h0 : envs 0 = ⟨false, false, .response status statusText json etag,
      now, elapsed⟩)
    (h4 : 400 ≤ status) (h5 : status < 500) :
    execLoop retry retryDelay envs 0 (retry + 1) 0 none
      = ⟨.error ⟨"Error", httpErrMsg status statusText⟩, 1, 1, []⟩ ∧
    ∀ (st : NetworkState) (url : String) (options : RequestConfig),
      (executeRequest st url options envs).1
        = .error ⟨"Error", httpErrMsg status statusText⟩ := by
  have hok : responseOk status = false := by
    unfold responseOk
    have h₃ : ¬ status < 300 := by omega
    simp [h₃]
  have hthrow : attemptThrow (envs 0)
      = .error ⟨"Error", httpErrMsg status statusText⟩ := by
    rw [h0]
    simp [attemptThrow, hok]
  have hbr : breaksLoop (envs 0)
      ⟨"Error", httpErrMsg status statusText⟩ = true := by
    rw [h0]
    simp [breaksLoop, strIncludes_httpErrMsg_4xx status statusText h4 h5]
  constructor
  · simp [execLoop, hthrow, hbr]
  · intro st url options
    have hloop₂ : execLoop (options.retry.getD 3) (options.retryDelay.getD 1000)
        envs 0 (options.retry.getD 3 + 1) 0 none
        = ⟨.error ⟨"Error", httpErrMsg status statusText⟩, 1, 1, []⟩ := by
      simp [execLoop, hthrow, hbr]
    simp [executeRequest, hloop₂]

/-- Witness for `client_error_single_attempt` on a concrete 404. -/
theorem client_error_single_attempt_witness :
    execLoop 3 1000 env404 0 (3 + 1) 0 none
      = ⟨.error ⟨"Error", httpErrMsg 404 ("Not Found")⟩, 1, 1, []⟩ ∧
    (executeRequest statePending ("/u") config₀ env404).1
      = .error ⟨"Error", httpErrMsg 404 ("Not Found")⟩ :=
  ⟨(client_error_single_attempt 3 1000 env404 404 ("Not Found")
      (.ok (Val.atom ("x"))) none 5 5 rfl (by omega) (by omega)).1,
   (client_error_single_attempt 3 1000 env404 404 ("Not Found")
      (.ok (Val.atom ("x"))) none 5 5 rfl (by omega) (by omega)).2
     statePending ("/u") config₀⟩

/-- C7: after any sequence of `setCache` calls the store holds at most
`maxCacheSize` entries; a write into a full store evicts exactly the
oldest-inserted binding (the head), leaving every other binding intact;
and a cache-hit read returns the store unchanged (reads never refresh an
entry's position). -/
theorem cache_capacity_and_oldest_eviction :
    (∀ ops : List SetOp, (applySets ops []).length ≤ maxCacheSize) ∧
    (∀ (k₀ : String) (e₀ : CacheEntry) (rest : List (String × CacheEntry))
       (k : String) (d : Val) (ttl now : Nat) (etag : Option String),
       maxCacheSize ≤ ((k₀, e₀) :: rest).length → k ≠ k₀ →
       k₀ ∉ rest.map Prod.fst →
       mapGet (setCache ((k₀, e₀) :: rest) k d ttl now etag) k₀ = none ∧
       ∀ k₂, k₂ ≠ k₀ → k₂ ≠ k →
         mapGet (setCache ((k₀, e₀) :: rest) k d ttl now etag) k₂
           = mapGet ((k₀, e₀) :: rest) k₂) ∧
    (∀ (c : List (String × CacheEntry)) (key : String) (now : Nat) (v : Val)
       (c₂ : List (String × CacheEntry)),
       getFromCache c key now = (some v, c₂) → c₂ = c) := by
  refine ⟨fun ops => applySets_length ops [] (by simp), ?_, ?_⟩
  · intro k₀ e₀ rest k d ttl now etag hfull hkk hnk
    have hset : setCache ((k₀, e₀) :: rest) k d ttl now etag
        = mapSet rest k ⟨d, now, ttl, etag⟩ := by
      simp only [setCache]
      rw [if_pos hfull]
    constructor
    · rw [hset, mapGet_mapSet_ne _ _ _ _ hkk, mapGet_eq_none rest k₀ hnk]
    · intro k₂ h₂0 h₂k
      have hne : ¬ k₀ = k₂ := fun hh => h₂0 hh.symm
      rw [hset, mapGet_mapSet_ne _ _ _ _ (fun hh => h₂k hh.symm)]
      simp [mapGet, hne]
  · intro c key now v c₂ h
    unfold getFromCache at h
    split at h
    · simp at h
    · split at h
      · simp at h
      · simp at h
        exact h.2.symm

/-- Witness for `cache_capacity_and_oldest_eviction`: a one-element
store stays within bounds; writing a fresh key into a full 50-entry store
evicts the oldest binding; a fresh read leaves a store unchanged. -/
theorem cache_capacity_and_oldest_eviction_witness :
    (applySets [⟨("a"), Val.atom ("1"), 5, 0, none⟩] []).length ≤ maxCacheSize ∧
    mapGet (setCache ((("0" : String), entry₀) :: tailCache) ("x")
      (Val.atom ("9")) 5 9 none) ("0") = none ∧
    [(("k" : String), entry₀)] = [(("k" : String), entry₀)] :=
  ⟨cache_capacity_and_oldest_eviction.1 _,
   (cache_capacity_and_oldest_eviction.2.1 ("0") entry₀ tailCache ("x")
      (Val.atom ("9")) 5 9 none (by decide) (by decide) (by decide)).1,
   cache_capacity_and_oldest_eviction.2.2 [(("k" : String), entry₀)] ("k") 3
     entry₀.data _ rfl⟩

end NetworkService

namespace NetworkService

/-- C8 (counterexample): a caller that attaches to an in-flight request
for its key completes without adding any entry to the metrics history
(the deduplication branch of `fetch` builds a metrics record but never
calls `recordMetrics`), contradicting one-entry-per-completed-request. -/
theorem attach_records_no_metrics_cex :
    fetchPath statePending ("/u") config₀ 5 1 = (FetchPath.attach, statePending) ∧
    metricsCount statePending.metrics ("/u") = 0 :=
  ⟨rfl, rfl⟩

/-- C8 (amended): a completed logical request records exactly one metrics
entry when it is served from cache or when it initiates the physical
request (on success and on failure alike), but a caller that attaches to
an in-flight request records none — its metrics map is left untouched. -/
theorem metrics_entries_per_fetch_path :
    (∀ (st : NetworkState) (url : String) (options : RequestConfig)
       (now elapsed : Nat) (d : Val) (st₂ : NetworkState),
       metricsCount st.metrics url < 100 →
       fetchPath st url options now elapsed = (.cacheHit d, st₂) →
       metricsCount st₂.metrics url = metricsCount st.metrics url + 1) ∧
    (∀ (st : NetworkState) (url : String) (options : RequestConfig)
       (now elapsed : Nat) (st₂ : NetworkState),
       fetchPath st url options now elapsed = (.attach, st₂) →
       st₂.metrics = st.metrics) ∧
    (∀ (st : NetworkState) (url : String) (options : RequestConfig)
       (envs : Nat → AttemptEnv),
       metricsCount st.metrics url < 100 →
       metricsCount ((executeRequest st url options envs).2).metrics url
         = metricsCount st.metrics url + 1) := by
  refine ⟨?_, ?_, ?_⟩
  · intro st url options now elapsed d st₂ hcap h
    simp only [fetchPath] at h
    split at h
    · injection h with h₁ h₂
      subst h₂
      exact metricsCount_recordMetrics _ _ _ hcap
    · split at h
      · simp at h
      · simp at h
  · intro st url options now elapsed st₂ h
    simp only [fetchPath] at h
    split at h
    · simp at h
    · split at h
      · injection h with h₁ h₂
        subst h₂
        rfl
      · simp at h
  · intro st url options envs hcap
    obtain ⟨m, hm⟩ := executeRequest_metrics st url options envs
    rw [hm, metricsCount_recordMetrics _ _ _ hcap]

/-- Witness for `metrics_entries_per_fetch_path` on the three concrete
paths. -/
theorem metrics_entries_per_fetch_path_witness :
    metricsCount ((fetchPath stateCached ("/u") config₀ 3 1).2).metrics ("/u")
      = 0 + 1 ∧
    (fetchPath statePending ("/u") config₀ 5 1).2.metrics
      = statePending.metrics ∧
    metricsCount ((executeRequest (⟨[], [], []⟩ : NetworkState) ("/u") config₀
        env404).2).metrics ("/u") = 0 + 1 :=
  ⟨metrics_entries_per_fetch_path.1 stateCached ("/u") config₀ 3 1
      (Val.atom ("v")) _ (by decide) rfl,
   metrics_entries_per_fetch_path.2.1 statePending ("/u") config₀ 5 1 _ rfl,
   metrics_entries_per_fetch_path.2.2 ⟨[], [], []⟩ ("/u") config₀ env404
      (by decide)⟩

/-- C1: in every run of the deduplication protocol, at most one physical
request per key is in flight at any instant (a caller arriving while the
key is registered attaches instead of starting a second `executeRequest`);
however, an attaching caller does not observe the initiating caller's
payload: the promise stored in `pendingRequests` resolves to the full
`\x7b data, metrics \x7d` record and the attaching caller receives that
whole record as its `data` (the unchecked `as T` cast on line 183), which
differs from the payload itself. -/
theorem dedup_at_most_one_physical_and_wrapped_attach :
    (∀ (evs : List DedupEv) (k : String),
      ((dedupRun evs).physical).count k ≤ 1) ∧
    (attachResult (Val.atom ("42"), metrics₀) 9 9).1
      = Val.fetchResult (Val.atom ("42")) metrics₀ ∧
    (attachResult (Val.atom ("42"), metrics₀) 9 9).1 ≠ Val.atom ("42") := by
  refine ⟨?_, rfl, by decide⟩
  intro evs k
  exact List.nodup_iff_count_le_one.mp (dedupInv_run evs).2.2 k

/-- C10: two configurations that differ only in the identity of their
abort signal serialize identically (an `AbortSignal` has no enumerable own
properties), so they produce the same cache key, and `fetch` — whose cache
lookup and `pendingRequests` lookup both use that key — behaves
identically on them: they share one cache entry and one in-flight
request. -/
theorem cache_key_ignores_signal_identity (url : String)
    (c₁ c₂ : RequestConfig) (s₁ s₂ : Nat)
    (ht : c₁.timeout = c₂.timeout) (hr : c₁.retry = c₂.retry)
    (httl : c₁.ttl = c₂.ttl) (hrd : c₁.retryDelay = c₂.retryDelay)
    (hs₁ : c₁.signal = some s₁) (hs₂ : c₂.signal = some s₂) :
    getCacheKey url c₁ = getCacheKey url c₂ ∧
    ∀ (st : NetworkState) (now elapsed : Nat),
      fetchPath st url c₁ now elapsed = fetchPath st url c₂ now elapsed := by
  have hstr : stringifyConfig c₁ = stringifyConfig c₂ := by
    unfold stringifyConfig
    rw [ht, hr, httl, hrd, hs₁, hs₂]
    simp
  have hkey : getCacheKey url c₁ = getCacheKey url c₂ := by
    unfold getCacheKey
    rw [hstr]
  refine ⟨hkey, fun st now elapsed => ?_⟩
  unfold fetchPath
  rw [hkey]

/-- Witness for `cache_key_ignores_signal_identity` on two configurations
holding distinct signal objects. -/
theorem cache_key_ignores_signal_identity_witness :
    getCacheKey ("/u") sigConfig₁ = getCacheKey ("/u") sigConfig₂ ∧
    fetchPath statePending ("/u") sigConfig₁ 3 1
      = fetchPath statePending ("/u") sigConfig₂ 3 1 :=
  ⟨(cache_key_ignores_signal_identity ("/u") sigConfig₁ sigConfig₂ 7 99
      rfl rfl rfl rfl rfl rfl).1,
   (cache_key_ignores_signal_identity ("/u") sigConfig₁ sigConfig₂ 7 99
      rfl rfl rfl rfl rfl rfl).2 statePending 3 1⟩

end NetworkService

namespace UseDataFetch

open NetworkService

/-- C9 (counterexample): in the concrete fallback scenario — the hook is
mounted with `fallbackData` and its request fails — the entire public
result is `\x7b data := the raw fallback value, loading := false,
error := the failure, metrics := none, isStale := true \x7d`: the fallback
value is carried bare in `data` and no field of the result marks it as
fallback (there is no `isFallback` flag in `UseDataFetchResult`). -/
theorem fallback_result_unmarked_cex :
    mkResult (fetchDataStep (initialState (some (Val.atom ("fb")))) true true
        (some (Val.atom ("fb"))) 300000 50 (.failure ⟨"Error", "boom"⟩ false))
      300000 400100
      = ⟨some (Val.atom ("fb")), false, some ⟨"Error", "boom"⟩, none, true⟩ :=
  rfl

/-- C9 (amended): when the caller supplies a (truthy) fallback value and
the request ultimately fails with a non-abort error, the hook's public
result carries the fallback value as `data` (the initial state seeds
`data` with `fallbackData`, and the error branch keeps it) with `error`
set; but nothing marks it as fallback: the result is exactly the record
`\x7b data, loading, error, metrics, isStale \x7d` with the bare fallback
in `data`. -/
theorem fallback_substituted_but_unmarked (f : Val) (err : JsError)
    (staleTime now stT nowT : Nat) (hname : err.name ≠ "AbortError") :
    (fetchDataStep (initialState (some f)) true true (some f) staleTime now
        (.failure err false)).data = some f ∧
    (fetchDataStep (initialState (some f)) true true (some f) staleTime now
        (.failure err false)).error = some err ∧
    mkResult (fetchDataStep (initialState (some f)) true true (some f)
        staleTime now (.failure err false)) stT nowT
      = ⟨some f, false, some err, none, stT < nowT⟩ := by
  have hstep : fetchDataStep (initialState (some f)) true true (some f)
      staleTime now (.failure err false)
      = ⟨some f, false, some err, none, 0⟩ := by
    simp [fetchDataStep, initialState, hname]
  rw [hstep]
  refine ⟨rfl, rfl, ?_⟩
  simp [mkResult]

/-- Witness for `fallback_substituted_but_unmarked` at concrete values. -/
theorem fallback_substituted_but_unmarked_witness :
    (fetchDataStep (initialState (some (Val.atom ("fb")))) true true
        (some (Val.atom ("fb"))) 300000 50 (.failure ⟨"Error", "down"⟩ false)).data
      = some (Val.atom ("fb")) ∧
    (fetchDataStep (initialState (some (Val.atom ("fb")))) true true
        (some (Val.atom ("fb"))) 300000 50 (.failure ⟨"Error", "down"⟩ false)).error
      = some ⟨"Error", "down"⟩ ∧
    mkResult (fetchDataStep (initialState (some (Val.atom ("fb")))) true true
        (some (Val.atom ("fb"))) 300000 50 (.failure ⟨"Error", "down"⟩ false)) 7 9
      = ⟨some (Val.atom ("fb")), false, some ⟨"Error", "down"⟩, none, 7 < 9⟩ :=
  fallback_substituted_but_unmarked (Val.atom ("fb")) ⟨"Error", "down"⟩
    300000 50 7 9 (by decide)

end UseDataFetch
